import Mathlib

/-!
Verification development for the task scheduler (`src/core/scheduler.js`).

Strings from the JavaScript source are embedded as `List Char`; every
JavaScript string primitive used by the scheduler (`toLowerCase`, `trim`,
`split`, `includes`, `parseInt`, `Number`, template literals) is given an
executable model below, and the five schedule regular expressions are run
by a small backtracking engine whose patterns transcribe the regex
literals of the source.  Timer arming (`setTimeout` / `setInterval`) is
modelled by handles stored on the task record, wall-clock reads
(`Date.now`, `new Date(s).getTime()`) are passed in as explicit
parameters, and thrown exceptions are modelled by `Except` /
`Option` error components.  Log output is not modelled except where a
claim depends on it (the load-failure warning flag).
-/

/-- JS `\d`: ASCII digit. -/
def jsDigit (c : Char) : Bool := decide ('0' ≤ c) && decide (c ≤ '9')

/-- JS `\s` restricted to the ASCII whitespace the schedule phrases can contain. -/
def jsSpace (c : Char) : Bool := decide (c = ' ') || decide (c = '\t') || decide (c = '\n') || decide (c = '\r')

/-- JS `\w`: ASCII letter, digit or underscore. -/
def jsWord (c : Char) : Bool :=
  (decide ('a' ≤ c) && decide (c ≤ 'z')) || (decide ('A' ≤ c) && decide (c ≤ 'Z')) || jsDigit c || decide (c = '_')

/-- JS `String.prototype.toLowerCase` on one ASCII character. -/
def jsToLower (c : Char) : Char :=
  if decide ('A' ≤ c) && decide (c ≤ 'Z') then Char.ofNat (c.toNat + 32) else c

/-- JS `toLowerCase` over a whole string. -/
def toLowerChars (cs : List Char) : List Char := cs.map jsToLower

/-- JS `String.prototype.trim`: drop whitespace at both ends. -/
def trimChars (cs : List Char) : List Char :=
  ((cs.dropWhile jsSpace).reverse.dropWhile jsSpace).reverse

/-- JS `String.prototype.split` with a one-character separator. -/
def splitOnChar (sep : Char) : List Char → List (List Char)
  | [] => [[]]
  | c :: cs =>
    let r := splitOnChar sep cs
    if c = sep then [] :: r
    else
      match r with
      | [] => [[c]]
      | h :: t => (c :: h) :: t

/-- Value of a leading run of decimal digits; `none` when there is none (JS `NaN`). -/
def leadDigits (cs : List Char) : Option Nat :=
  let ds := cs.takeWhile jsDigit
  if ds.isEmpty then none
  else some (ds.foldl (fun a c => a * 10 + (c.toNat - 48)) 0)

/-- JS `parseInt`: skip leading whitespace, optional sign, then leading digits; `none` is `NaN`. -/
def jsParseInt (s : List Char) : Option Int :=
  match s.dropWhile jsSpace with
  | '-' :: rest => (leadDigits rest).map (fun n => -(n : Int))
  | '+' :: rest => (leadDigits rest).map (fun n => (n : Int))
  | other => (leadDigits other).map (fun n => (n : Int))

/-- JS `Number(...)` on the integer-literal strings a cron field can hold:
trimmed empty string is `0`, otherwise an optionally signed digit string;
anything else (which `Number` would make `NaN` or a float) is `none`. -/
def jsNumber (s : List Char) : Option Int :=
  match trimChars s with
  | [] => some 0
  | '-' :: rest => if rest ≠ [] && rest.all jsDigit then (leadDigits rest).map (fun n => -(n : Int)) else none
  | '+' :: rest => if rest ≠ [] && rest.all jsDigit then (leadDigits rest).map (fun n => (n : Int)) else none
  | other => if other.all jsDigit then (leadDigits other).map (fun n => (n : Int)) else none

/-- JS `String(n)` for a non-negative number. -/
def natRepr (n : Nat) : List Char := (Nat.repr n).data

/-- JS template interpolation of a possibly negative integer. -/
def intRepr (i : Int) : List Char :=
  if i < 0 then '-' :: natRepr i.natAbs else natRepr i.toNat

/-- JS `String.prototype.endsWith`. -/
def endsWithJ (suf l : List Char) : Bool :=
  decide (suf.length ≤ l.length) && (l.drop (l.length - suf.length) == suf)

/-- JS `Array.prototype.indexOf`: index of first occurrence, `-1` when absent. -/
def jsIndexOf (l : List (List Char)) (x : List Char) : Int :=
  match l.findIdx? (fun y => y == x) with
  | some i => (i : Int)
  | none => -1

/-! ## A small backtracking engine for the five schedule regexes

The engine implements exactly the constructs those literals use: literal
characters, the classes `\d` `\s` `\w` with greedy counted repetition,
alternation of literal words, and capturing groups.  `search` scans for
the leftmost match, as JS `String.prototype.match` does, and returns the
list of captured substrings. -/

/-- Character classes appearing in the schedule regexes. -/
inductive CClass
  | digit
  | space
  | word
deriving DecidableEq

def CClass.test : CClass → Char → Bool
  | .digit, c => jsDigit c
  | .space, c => jsSpace c
  | .word, c => jsWord c

/-- One regex atom: a literal, a greedy counted class repetition
(`none` upper bound = unbounded), or an alternation of literal words. -/
inductive Atom
  | lit : Char → Atom
  | klass : CClass → Nat → Option Nat → Atom
  | alts : List (List Char) → Atom

/-- A pattern element: a bare atom or a capturing group of atoms. -/
inductive Item
  | atom : Atom → Item
  | group : List Atom → Item

/-- Length of the maximal class-matching run at the head of the input. -/
def maxRun (k : CClass) : List Char → Nat
  | [] => 0
  | c :: cs => if k.test c then maxRun k cs + 1 else 0

/-- Repetition counts a greedy quantifier tries, largest first. -/
def candidates (lo m : Nat) : List Nat :=
  ((List.range (m + 1)).reverse).filter (fun n => decide (lo ≤ n))

/-- Match one atom at the head of `cs`, then run the continuation on the
rest; greedy repetitions backtrack through the continuation. -/
def matchAtom {α : Type} (a : Atom) (cs : List Char) (cont : List Char → Option α) : Option α :=
  match a with
  | .lit c =>
    match cs with
    | [] => none
    | c0 :: rest => if c0 = c then cont rest else none
  | .klass k lo hi =>
    let m0 := maxRun k cs
    let m := match hi with
      | some h => min m0 h
      | none => m0
    (candidates lo m).findSome? (fun n => cont (cs.drop n))
  | .alts ss =>
    ss.findSome? (fun s => if cs.take s.length = s then cont (cs.drop s.length) else none)

/-- Match a list of atoms in sequence. -/
def matchAtoms {α : Type} (as : List Atom) (cs : List Char) (cont : List Char → Option α) : Option α :=
  match as with
  | [] => cont cs
  | a :: rest => matchAtom a cs (fun cs2 => matchAtoms rest cs2 cont)

/-- Match a pattern, collecting the substring consumed by each group. -/
def matchItems (items : List Item) (cs : List Char) (cont : List Char → Option (List (List Char))) :
    Option (List (List Char)) :=
  match items with
  | [] => cont cs
  | .atom a :: rest => matchAtom a cs (fun cs2 => matchItems rest cs2 cont)
  | .group body :: rest =>
    matchAtoms body cs (fun cs2 =>
      (matchItems rest cs2 cont).map (fun caps => cs.take (cs.length - cs2.length) :: caps))

/-- Leftmost search, as JS `str.match(re)`: try each start position in order. -/
def search (items : List Item) : List Char → Option (List (List Char))
  | [] => matchItems items [] (fun _ => some [])
  | c :: cs =>
    match matchItems items (c :: cs) (fun _ => some []) with
    | some caps => some caps
    | none => search items cs

/-- `\s+` -/
def sPlus : Atom := .klass .space 1 none

/-- `\s*` -/
def sStar : Atom := .klass .space 0 none

/-- `\d{lo,hi}` -/
def dK (lo hi : Nat) : Atom := .klass .digit lo (some hi)

/-- A run of literal characters as pattern items. -/
def lits (s : List Char) : List Item := s.map (fun c => Item.atom (Atom.lit c))

/-- `/at\s+(\d{4}-\d{2}-\d{2}\s+\d{1,2}:\d{2})/` -/
def oneTimeRe : List Item :=
  lits [ 'a', 't' ] ++
  [ .atom sPlus,
    .group [ dK 4 4, .lit '-', dK 2 2, .lit '-', dK 2 2, sPlus, dK 1 2, .lit ':', dK 2 2 ] ]

/-- `/every\s+(\d+)\s*(minute|minutes|hour|hours|day|days)/` -/
def heartbeatRe : List Item :=
  lits [ 'e', 'v', 'e', 'r', 'y' ] ++
  [ .atom sPlus,
    .group [ .klass .digit 1 none ],
    .atom sStar,
    .group [ .alts [ [ 'm', 'i', 'n', 'u', 't', 'e' ], [ 'm', 'i', 'n', 'u', 't', 'e', 's' ],
                     [ 'h', 'o', 'u', 'r' ], [ 'h', 'o', 'u', 'r', 's' ],
                     [ 'd', 'a', 'y' ], [ 'd', 'a', 'y', 's' ] ] ] ]

/-- `/daily\s+at\s+(\d{1,2}:\d{2})/` -/
def dailyRe : List Item :=
  lits [ 'd', 'a', 'i', 'l', 'y' ] ++ [ .atom sPlus ] ++ lits [ 'a', 't' ] ++
  [ .atom sPlus, .group [ dK 1 2, .lit ':', dK 2 2 ] ]

/-- `/weekly\s+on\s+(\w+)\s+at\s+(\d{1,2}:\d{2})/` -/
def weeklyRe : List Item :=
  lits [ 'w', 'e', 'e', 'k', 'l', 'y' ] ++ [ .atom sPlus ] ++ lits [ 'o', 'n' ] ++
  [ .atom sPlus, .group [ .klass .word 1 none ], .atom sPlus ] ++ lits [ 'a', 't' ] ++
  [ .atom sPlus, .group [ dK 1 2, .lit ':', dK 2 2 ] ]

/-- `/monthly\s+on\s+(\d{1,2})\s+at\s+(\d{1,2}:\d{2})/` -/
def monthlyRe : List Item :=
  lits [ 'm', 'o', 'n', 't', 'h', 'l', 'y' ] ++ [ .atom sPlus ] ++ lits [ 'o', 'n' ] ++
  [ .atom sPlus, .group [ dK 1 2 ], .atom sPlus ] ++ lits [ 'a', 't' ] ++
  [ .atom sPlus, .group [ dK 1 2, .lit ':', dK 2 2 ] ]

/-- Parsed schedule descriptor (`parseSchedule`'s return value). -/
inductive Parsed
  | oneTime (datetime : List Char)
  | heartbeat (interval : Int)
  | recurring (cron : List Char)
deriving DecidableEq

/-- The weekday list used by the weekly branch. -/
def daysList : List (List Char) :=
  [ [ 's', 'u', 'n', 'd', 'a', 'y' ], [ 'm', 'o', 'n', 'd', 'a', 'y' ],
    [ 't', 'u', 'e', 's', 'd', 'a', 'y' ], [ 'w', 'e', 'd', 'n', 'e', 's', 'd', 'a', 'y' ],
    [ 't', 'h', 'u', 'r', 's', 'd', 'a', 'y' ], [ 'f', 'r', 'i', 'd', 'a', 'y' ],
    [ 's', 'a', 't', 'u', 'r', 'd', 'a', 'y' ] ]

/-- `parseSchedule(scheduleStr)`: lowercase and trim, then try the five
regexes in source order, first match wins. -/
def parseSchedule (s : List Char) : Option Parsed :=
  let str := trimChars (toLowerChars s)
  match search oneTimeRe str with
  | some caps => some (.oneTime (caps.getD 0 []))
  | none =>
  match search heartbeatRe str with
  | some caps =>
    let value := (jsParseInt (caps.getD 0 [])).getD 0
    let unit := caps.getD 1 []
    let interval :=
      if unit.take 6 = [ 'm', 'i', 'n', 'u', 't', 'e' ] then value * 60 * 1000
      else if unit.take 4 = [ 'h', 'o', 'u', 'r' ] then value * 60 * 60 * 1000
      else value * 24 * 60 * 60 * 1000
    some (.heartbeat interval)
  | none =>
  match search dailyRe str with
  | some caps =>
    let parts := splitOnChar ':' (caps.getD 0 [])
    some (.recurring ([ '0', ' ' ] ++ parts.getD 1 [] ++ [ ' ' ] ++ parts.getD 0 [] ++
      [ ' ', '*', ' ', '*', ' ', '*' ]))
  | none =>
  match search weeklyRe str with
  | some caps =>
    let dayIndex := jsIndexOf daysList (toLowerChars (caps.getD 0 []))
    let parts := splitOnChar ':' (caps.getD 1 [])
    some (.recurring ([ '0', ' ' ] ++ parts.getD 1 [] ++ [ ' ' ] ++ parts.getD 0 [] ++
      [ ' ', '*', ' ', '*', ' ' ] ++ intRepr dayIndex))
  | none =>
  match search monthlyRe str with
  | some caps =>
    let parts := splitOnChar ':' (caps.getD 1 [])
    some (.recurring ([ '0', ' ' ] ++ parts.getD 1 [] ++ [ ' ' ] ++ parts.getD 0 [] ++
      [ ' ' ] ++ caps.getD 0 [] ++ [ ' ', '*', ' ', '*' ]))
  | none => none

/-! ## Data model

TaskRec records mirror the fields the source builds in `addTask`.  ISO
timestamp strings are represented by the epoch milliseconds they encode
(`TimeVal.ms`), except where the source copies a raw phrase substring
(`TimeVal.str`).  A `TimerH` models a live timing primitive: `fires`
holds the `setTimeout` delay / `setInterval` period that was passed in,
and `active` is cleared by `clearTimeout` / `clearInterval` (the source
keeps the handle on the record after cancelling it). -/

/-- A stored timestamp: the raw schedule substring or an instant in epoch ms. -/
inductive TimeVal
  | str (s : List Char)
  | ms (n : Int)
deriving DecidableEq

/-- A timing-primitive handle attached to a task record. -/
structure TimerH where
  fires : Int
  active : Bool
deriving DecidableEq

/-- A seed conversation message. -/
structure Msg where
  role : List Char
  content : List Char
deriving DecidableEq

/-- Collaborator return value: `processMessage -> {response?, error?}`. -/
structure AgentResult where
  response : Option (List Char) := none
  error : Option (List Char) := none
deriving DecidableEq

/-- The task record built by `addTask` and mutated by the runner. -/
structure TaskRec where
  id : List Char
  name : List Char
  type : List Char
  schedule : List Char
  command : List Char
  skill : Option (List Char) := none
  context : List Msg := []
  interval : Option Int := none
  cron : Option (List Char) := none
  datetime : Option (List Char) := none
  enabled : Bool := true
  maxAttempts : Nat := 5
  createdAt : Option TimeVal := none
  lastRun : Option TimeVal := none
  nextRun : Option TimeVal := none
  runCount : Nat := 0
  successCount : Nat := 0
  failureCount : Nat := 0
  timeout : Option TimerH := none
  intervalId : Option TimerH := none
  cronId : Option TimerH := none
deriving DecidableEq

/-- Scheduler state: the three process-wide maps of the source
(`tasks`, `runningTasks`, `stopFlags`); the two boolean-valued maps are
kept as key lists. -/
structure SchedState where
  tasks : List (List Char × TaskRec) := []
  runningTasks : List (List Char) := []
  stopFlags : List (List Char) := []
deriving DecidableEq

/-- JS `Map.get`. -/
def mapGet (m : List (List Char × TaskRec)) (k : List Char) : Option TaskRec :=
  (m.find? (fun p => p.1 == k)).map (fun p => p.2)

/-- JS `Map.set`: replace in place or append. -/
def mapSet (m : List (List Char × TaskRec)) (k : List Char) (v : TaskRec) : List (List Char × TaskRec) :=
  match m with
  | [] => [(k, v)]
  | (k0, v0) :: rest => if k0 = k then (k, v) :: rest else (k0, v0) :: mapSet rest k v

/-- JS `Map.delete` on the task map. -/
def mapDelete (m : List (List Char × TaskRec)) (k : List Char) : List (List Char × TaskRec) :=
  m.filter (fun p => !(p.1 == k))

/-- JS `Map.set(id, true)` on a boolean-valued map. -/
def keyAdd (l : List (List Char)) (k : List Char) : List (List Char) :=
  if l.contains k then l else l ++ [k]

/-- JS `Map.delete(id)` on a boolean-valued map. -/
def keyDelete (l : List (List Char)) (k : List Char) : List (List Char) :=
  l.filter (fun x => !(x == k))

/-- `isRunning(taskId)`. -/
def isRunning (st : SchedState) (id : List Char) : Bool := st.runningTasks.contains id

/-- `isStopped(taskId)`: `stopFlags.get(id) || false`. -/
def isStopped (st : SchedState) (id : List Char) : Bool := st.stopFlags.contains id

/-- The thrown-exception component of a modelled `saveTask` outcome. -/
def saveThrown (sv : Except (List Char) Unit) : Option (List Char) :=
  match sv with
  | .ok _ => none
  | .error e => some e

/-! ## Dispatch engine -/

/-- `scheduleCronTask(task)` minus the timer body: arm the 60 s poller. -/
def scheduleCronTask (now : Int) (t : TaskRec) : TaskRec :=
  { t with cronId := some ⟨60000, true⟩, nextRun := some (.ms (now + 60000)) }

/-- `scheduleTask(task)`: arm the timing primitive for the task's type.
`dateMs` models `new Date(str).getTime()`; `now` models `Date.now()`. -/
def scheduleTask (now : Int) (dateMs : List Char → Int) (t : TaskRec) : TaskRec :=
  if t.type = [ 'o', 'n', 'e', '-', 't', 'i', 'm', 'e' ] then
    match t.datetime with
    | some d =>
      let delay := dateMs d - now
      if delay > 0 then { t with timeout := some ⟨delay, true⟩, nextRun := some (.str d) } else t
    | none => t
  else if t.type = [ 'h', 'e', 'a', 'r', 't', 'b', 'e', 'a', 't' ] then
    { t with intervalId := some ⟨t.interval.getD 0, true⟩,
             nextRun := some (.ms (now + t.interval.getD 0)) }
  else if t.type = [ 'r', 'e', 'c', 'u', 'r', 'r', 'i', 'n', 'g' ] && t.cron.isSome then
    scheduleCronTask now t
  else t

/-- The type string stored for a parsed descriptor. -/
def Parsed.typeStr : Parsed → List Char
  | .oneTime _ => [ 'o', 'n', 'e', '-', 't', 'i', 'm', 'e' ]
  | .heartbeat _ => [ 'h', 'e', 'a', 'r', 't', 'b', 'e', 'a', 't' ]
  | .recurring _ => [ 'r', 'e', 'c', 'u', 'r', 'r', 'i', 'n', 'g' ]

def Parsed.intervalVal : Parsed → Option Int
  | .heartbeat i => some i
  | _ => none

def Parsed.cronVal : Parsed → Option (List Char)
  | .recurring c => some c
  | _ => none

def Parsed.datetimeVal : Parsed → Option (List Char)
  | .oneTime d => some d
  | _ => none

/-- `addTask(name, scheduleStr, command, options)`.  `newId` stands for
`generateId()`, `sv` for the outcome of the `saveTask` write (whose
failure the source does not catch).  Returns the new state and either
the created task or the thrown error. -/
def addTask (st : SchedState) (newId : List Char) (now : Int) (dateMs : List Char → Int)
    (name sched cmd : List Char) (optSkill : Option (List Char)) (optCtx : List Msg)
    (optMax : Option Nat) (sv : Except (List Char) Unit) :
    SchedState × Except (List Char) TaskRec :=
  match parseSchedule sched with
  | none => (st, .error [ 'I', 'n', 'v', 'a', 'l', 'i', 'd' ])
  | some p =>
    let task : TaskRec :=
      { id := newId, name := name, type := p.typeStr, schedule := sched, command := cmd,
        skill := (match optSkill with
          | some s => if s.isEmpty then none else some s
          | none => none),
        context := optCtx,
        interval := p.intervalVal, cron := p.cronVal, datetime := p.datetimeVal,
        enabled := true,
        maxAttempts := (match optMax with
          | some n => if n = 0 then 5 else n
          | none => 5),
        createdAt := some (.ms now), lastRun := none, nextRun := none,
        runCount := 0, successCount := 0, failureCount := 0 }
    let st1 := { st with tasks := mapSet st.tasks task.id task }
    match sv with
    | .error e => (st1, .error e)
    | .ok _ =>
      if task.enabled && !(task.type == [ 'o', 'n', 'e', '-', 't', 'i', 'm', 'e' ]) then
        let t2 := scheduleTask now dateMs task
        ({ st with tasks := mapSet st.tasks t2.id t2 }, .ok t2)
      else (st1, .ok task)

/-! ## TaskRec runner -/

/-- Which of `runTask`'s guards fired, or that the collaborator ran. -/
inductive RunOutcome
  | notFound
  | alreadyRunning
  | stopped
  | ran
deriving DecidableEq

/-- The guard section of `runTask`, up to and including marking the task
in flight; `none`-like outcomes are the three logged early returns. -/
def runTaskStart (st : SchedState) (id : List Char) : Option SchedState × RunOutcome :=
  match mapGet st.tasks id with
  | none => (none, .notFound)
  | some _ =>
    if st.runningTasks.contains id then (none, .alreadyRunning)
    else if st.stopFlags.contains id then (none, .stopped)
    else (some { st with runningTasks := keyAdd st.runningTasks id }, .ran)

/-- The completion section of `runTask`: stats update from the
collaborator outcome, then the `finally` block (clear the in-flight
marker, then `saveTask`, whose failure is the returned thrown error). -/
def runTaskFinish (st : SchedState) (id : List Char) (now : Int)
    (collab : Except (List Char) AgentResult) (sv : Except (List Char) Unit) :
    SchedState × Option (List Char) :=
  match mapGet st.tasks id with
  | none => (st, none)
  | some t =>
    let t2 :=
      match collab with
      | .ok r =>
        let t1 := { t with lastRun := some (.ms now), runCount := t.runCount + 1,
                           successCount := t.successCount + 1 }
        match r.error with
        | some e => if e.isEmpty then t1 else { t1 with failureCount := t1.failureCount + 1 }
        | none => t1
      | .error _ =>
        { t with lastRun := some (.ms now), runCount := t.runCount + 1,
                 failureCount := t.failureCount + 1 }
    ({ st with tasks := mapSet st.tasks id t2,
               runningTasks := keyDelete st.runningTasks id },
     saveThrown sv)

/-- `runTask(taskId)`: guards, collaborator call, stats, persistence.
Returns the state, the exception escaping the call (only a `saveTask`
failure can), and which path was taken. -/
def runTask (st : SchedState) (id : List Char) (now : Int)
    (collab : Except (List Char) AgentResult) (sv : Except (List Char) Unit) :
    SchedState × Option (List Char) × RunOutcome :=
  match runTaskStart st id with
  | (some st1, _) =>
    let r := runTaskFinish st1 id now collab sv
    (r.1, r.2, .ran)
  | (none, o) => (st, none, o)

/-! ## Registry operations -/

/-- `stopTask(taskId)`: cancel any armed primitive, clear the in-flight marker. -/
def stopTask (st : SchedState) (id : List Char) : SchedState :=
  let tasks' :=
    match mapGet st.tasks id with
    | some t =>
      mapSet st.tasks id
        { t with timeout := t.timeout.map (fun h => { h with active := false }),
                 intervalId := t.intervalId.map (fun h => { h with active := false }),
                 cronId := t.cronId.map (fun h => { h with active := false }) }
    | none => st.tasks
  { st with tasks := tasks', runningTasks := keyDelete st.runningTasks id }

/-- `requestStop(taskId)`: set the stop flag, clear the in-flight marker. -/
def requestStop (st : SchedState) (id : List Char) : SchedState :=
  { st with stopFlags := keyAdd st.stopFlags id,
            runningTasks := keyDelete st.runningTasks id }

/-- `removeTask(taskId)`: disarm, then delete the record (the store
unlink is inside a swallowed try/catch). -/
def removeTask (st : SchedState) (id : List Char) : SchedState × Bool :=
  match mapGet st.tasks id with
  | none => (st, false)
  | some _ =>
    let st1 := stopTask st id
    ({ st1 with tasks := mapDelete st1.tasks id }, true)

/-- `pauseTask(taskId)`: disable, disarm, persist (save failure rethrown). -/
def pauseTask (st : SchedState) (id : List Char) (sv : Except (List Char) Unit) :
    SchedState × Option (List Char) × Bool :=
  match mapGet st.tasks id with
  | none => (st, none, false)
  | some t =>
    let st1 := { st with tasks := mapSet st.tasks id { t with enabled := false } }
    let st2 := stopTask st1 id
    (st2, saveThrown sv, true)

/-- `resumeTask(taskId)`: enable, re-arm unless one-time, persist. -/
def resumeTask (st : SchedState) (id : List Char) (now : Int) (dateMs : List Char → Int)
    (sv : Except (List Char) Unit) : SchedState × Option (List Char) × Bool :=
  match mapGet st.tasks id with
  | none => (st, none, false)
  | some t =>
    let t1 := { t with enabled := true }
    let t2 := if !(t1.type == [ 'o', 'n', 'e', '-', 't', 'i', 'm', 'e' ])
      then scheduleTask now dateMs t1 else t1
    ({ st with tasks := mapSet st.tasks id t2 }, saveThrown sv, true)

/-- `shutdown()`: `stopTask` every task id. -/
def shutdown (st : SchedState) : SchedState :=
  (st.tasks.map (fun p => p.1)).foldl stopTask st

/-! ## Startup load -/

/-- The loop body of `loadTasks`: set each parsed record into the map and
arm it when enabled and not one-time; the first unparseable record
aborts the loop (its `JSON.parse` throws into the surrounding catch).
The returned flag records whether the failure warning was logged. -/
def loadLoop (now : Int) (dateMs : List Char → Int) :
    List (List Char × Except (List Char) TaskRec) → SchedState → SchedState × Bool
  | [], st => (st, false)
  | (_, .error _) :: _, st => (st, true)
  | (_, .ok d) :: rest, st =>
    let d2 := if d.enabled && !(d.type == [ 'o', 'n', 'e', '-', 't', 'i', 'm', 'e' ])
      then scheduleTask now dateMs d else d
    loadLoop now dateMs rest { st with tasks := mapSet st.tasks d2.id d2 }

/-- `loadTasks()`: list the store directory (`.error` when `readdirSync`
throws), keep the `.json` files, and run the load loop; every failure is
caught, logged and leaves the tasks read so far. -/
def loadTasks (now : Int) (dateMs : List Char → Int)
    (dir : Except (List Char) (List (List Char × Except (List Char) TaskRec))) :
    SchedState × Bool :=
  match dir with
  | .error _ => (⟨[], [], []⟩, true)
  | .ok files =>
    loadLoop now dateMs (files.filter (fun f => endsWithJ [ '.', 'j', 's', 'o', 'n' ] f.1)) ⟨[], [], []⟩

/-! ## Cron tick evaluation -/

/-- The components `runCron` reads from `new Date()` (`month` is
`getMonth() + 1`). -/
structure CurrentTime where
  second : Nat
  minute : Nat
  hour : Nat
  dayOfMonth : Nat
  month : Nat
  dayOfWeek : Nat
deriving DecidableEq

/-- The `current` object's values in key order. -/
def currentList (t : CurrentTime) : List Nat :=
  [ t.second, t.minute, t.hour, t.dayOfMonth, t.month, t.dayOfWeek ]

/-- JS property lookup `current[field]` for a field-string key. -/
def currentGet (t : CurrentTime) (k : List Char) : Option Nat :=
  if k = [ 's', 'e', 'c', 'o', 'n', 'd' ] then some t.second
  else if k = [ 'm', 'i', 'n', 'u', 't', 'e' ] then some t.minute
  else if k = [ 'h', 'o', 'u', 'r' ] then some t.hour
  else if k = [ 'd', 'a', 'y', 'O', 'f', 'M', 'o', 'n', 't', 'h' ] then some t.dayOfMonth
  else if k = [ 'm', 'o', 'n', 't', 'h' ] then some t.month
  else if k = [ 'd', 'a', 'y', 'O', 'f', 'W', 'e', 'e', 'k' ] then some t.dayOfWeek
  else none

/-- `current[cronFields[i]] || current[Object.keys(current)[i]]`: the
left operand is only taken when defined and truthy (non-zero). -/
def tickValue (t : CurrentTime) (f : List Char) (i : Nat) : Option Nat :=
  match currentGet t f with
  | some v => if v ≠ 0 then some v else (currentList t).get? i
  | none => (currentList t).get? i

/-- The field matcher `matches(field, value)` for a defined numeric value. -/
def matchesField (f : List Char) (v : Nat) : Bool :=
  if f = [ '*' ] then true
  else if f.contains ',' then (splitOnChar ',' f).contains (natRepr v)
  else if f.contains '-' then
    match jsNumber ((splitOnChar '-' f).getD 0 []), jsNumber ((splitOnChar '-' f).getD 1 []) with
    | some a, some b => decide (a ≤ (v : Int)) && decide ((v : Int) ≤ b)
    | _, _ => false
  else if f.contains '/' then
    match jsParseInt ((splitOnChar '/' f).getD 1 []) with
    | some s => if s = 0 then false else decide (Int.tmod (v : Int) s = 0)
    | none => false
  else
    match jsParseInt f with
    | some n => decide (n = (v : Int))
    | none => false

/-- `matches(field, value)` including the `value === undefined` case
(`String(undefined)` is "undefined", every numeric comparison on
`undefined` is false, `'*'` still matches). -/
def matchesFieldO (f : List Char) : Option Nat → Bool
  | some v => matchesField f v
  | none =>
    if f = [ '*' ] then true
    else if f.contains ',' then
      (splitOnChar ',' f).contains [ 'u', 'n', 'd', 'e', 'f', 'i', 'n', 'e', 'd' ]
    else false

/-- The tick condition of `runCron`: every cron field matches its value. -/
def cronTickFires (cron : List Char) (t : CurrentTime) : Bool :=
  let fs := splitOnChar ' ' cron
  (List.range fs.length).all (fun i => matchesFieldO (fs.getD i []) (tickValue t (fs.getD i []) i))

/-- One poller tick for an armed recurring task: evaluate the cron
expression the closure captured and invoke the runner when it matches.
The last component records whether the runner was invoked. -/
def cronTick (st : SchedState) (id : List Char) (cron : List Char) (tm : CurrentTime)
    (now : Int) (collab : Except (List Char) AgentResult) (sv : Except (List Char) Unit) :
    SchedState × Option (List Char) × Bool :=
  if cronTickFires cron tm then
    let r := runTask st id now collab sv
    (r.1, r.2.1, true)
  else (st, none, false)

/-! ## Operation sequences (for durability of the stop flag) -/

/-- One public scheduler operation with its environment inputs. -/
inductive Op
  | addT (newId : List Char) (now : Int) (name sched cmd : List Char) (sv : Except (List Char) Unit)
  | removeT (id : List Char)
  | pauseT (id : List Char) (sv : Except (List Char) Unit)
  | resumeT (id : List Char) (now : Int) (sv : Except (List Char) Unit)
  | requestStopT (id : List Char)
  | stopT (id : List Char)
  | runT (id : List Char) (now : Int) (collab : Except (List Char) AgentResult) (sv : Except (List Char) Unit)
  | shutdownT

/-- Apply one operation to the state. -/
def applyOp (dateMs : List Char → Int) (st : SchedState) : Op → SchedState
  | .addT nid now nm sc cmd sv => (addTask st nid now dateMs nm sc cmd none [] none sv).1
  | .removeT id => (removeTask st id).1
  | .pauseT id sv => (pauseTask st id sv).1
  | .resumeT id now sv => (resumeTask st id now dateMs sv).1
  | .requestStopT id => requestStop st id
  | .stopT id => stopTask st id
  | .runT id now c sv => (runTask st id now c sv).1
  | .shutdownT => shutdown st

/-- Apply a sequence of operations in order. -/
def applyOps (dateMs : List Char → Int) (st : SchedState) (ops : List Op) : SchedState :=
  ops.foldl (applyOp dateMs) st

/-! ## Concrete fixtures used by the closed theorems -/

deriving instance DecidableEq for Except

/-- A heartbeat task with fresh statistics. -/
def hbTask : TaskRec :=
  { id := [ 'a' ], name := [ 'a' ], type := [ 'h', 'e', 'a', 'r', 't', 'b', 'e', 'a', 't' ],
    schedule := [ 'e' ], command := [ 'x' ], interval := some 60000 }

/-- A heartbeat task with nonzero statistics (5 runs = 3 successes + 2 failures). -/
def hbTask2 : TaskRec :=
  { hbTask with id := [ 'b' ], runCount := 5, successCount := 3, failureCount := 2 }

/-- A state holding the two heartbeat tasks, nothing in flight, no stop flags. -/
def hbState : SchedState := { tasks := [([ 'a' ], hbTask), ([ 'b' ], hbTask2)] }

/-- The collaborator outcome `{error: "boom"}`: an error payload returned without throwing. -/
def errPayload : Except (List Char) AgentResult :=
  .ok { error := some [ 'b', 'o', 'o', 'm' ] }

/-- Claim C1 — code_bug evidence.  The spec invariant says
`runCount = successCount + failureCount` after every completed run.  On
the error-payload path the source increments `successCount`
unconditionally (line 212) and then also `failureCount` (line 215), so a
single run starting from counters (0, 0, 0) ends at (1, 1, 1), where
1 ≠ 1 + 1: the invariant is broken immediately after the run completes. -/
theorem C1_run_counts_diverge :
    ((mapGet (runTask hbState [ 'a' ] 50 errPayload (.ok ())).1.tasks [ 'a' ]).map
        (fun t => (t.runCount, t.successCount, t.failureCount))) = some (1, 1, 1) ∧
    ((mapGet (runTask hbState [ 'a' ] 50 errPayload (.ok ())).1.tasks [ 'a' ]).map
        (fun t => decide (t.runCount = t.successCount + t.failureCount))) = some false := by
  decide

/-- Claim C3 — code_bug evidence.  For an error-payload run the claim
requires `failureCount` + 1 and `successCount` unchanged; the source
also increments `successCount` (line 212 runs before the error check),
so counters (5, 3, 2) become (6, 4, 3) instead of (6, 3, 3). -/
theorem C3_error_payload_also_counts_success :
    ((mapGet (runTask hbState [ 'b' ] 50 errPayload (.ok ())).1.tasks [ 'b' ]).map
        (fun t => (t.runCount, t.successCount, t.failureCount))) = some (6, 4, 3) ∧
    ¬ ((mapGet (runTask hbState [ 'b' ] 50 errPayload (.ok ())).1.tasks [ 'b' ]).map
        (fun t => t.successCount) = some hbTask2.successCount) := by
  decide

/-- The result of adding an enabled one-time task whose target instant
(2099-01-01, modelled at epoch ms 4070908800000) is far in the future of
`now = 0`. -/
def addOneTime : SchedState × Except (List Char) TaskRec :=
  addTask ⟨[], [], []⟩ [ 't', '1' ] 0 (fun _ => 4070908800000)
    [ 'r' ] ("at 2099-01-01 00:00").data [ 'h' ] none [] none (.ok ())

/-- Claim C2 — code_bug evidence.  `addTask` only calls `scheduleTask`
when `task.type !== 'one-time'` (line 122), so an enabled one-time task
with a strictly future target is persisted but no deferred callback is
ever armed (`timeout = none`), even though `scheduleTask`'s own one-time
branch would arm it (`delay = 4070908800000 > 0`).  The same type guard
in `loadTasks` (line 34) and `resumeTask` (line 273) makes that branch
unreachable, so a one-time task can never fire. -/
theorem C2_one_time_add_never_armed :
    parseSchedule ("at 2099-01-01 00:00").data =
      some (.oneTime ("2099-01-01 00:00").data) ∧
    (Except.toOption addOneTime.2).map
        (fun t => (t.enabled, t.timeout, t.intervalId, t.cronId, t.type)) =
      some (true, none, none, none, ("one-time").data) ∧
    (mapGet addOneTime.1.tasks [ 't', '1' ]).isSome = true ∧
    (Except.toOption addOneTime.2).map
        (fun t => (scheduleTask 0 (fun _ => 4070908800000) t).timeout) =
      some (some ⟨4070908800000, true⟩) := by
  decide

/-- Claim C8 — counterexample.  `saveTask` (lines 44-47) has no error
handling, so a failing store write escapes: out of `runTask`'s `finally`
(the thrown-error component is `some "disk full"`, not `none`), out of
`addTask`, and out of `pauseTask`.  The claim that a `save(task)` failure
"is reported but does not propagate" is false. -/
theorem C8_save_failure_propagates :
    (runTask hbState [ 'a' ] 50 (.ok {}) (.error ("disk full").data)).2.1 =
      some ("disk full").data ∧
    (runTask hbState [ 'a' ] 50 (.ok {}) (.error ("disk full").data)).2.2 = RunOutcome.ran ∧
    (addTask ⟨[], [], []⟩ [ 't', '2' ] 0 (fun _ => 0) [ 'n' ] ("every 5 minutes").data
        [ 'c' ] none [] none (.error ("disk full").data)).2 =
      Except.error ("disk full").data ∧
    (pauseTask hbState [ 'a' ] (.error ("disk full").data)).2.1 = some ("disk full").data := by
  decide

/-- A recurring task carrying the daily-at-9:30 cron expression. -/
def recTask : TaskRec :=
  { id := [ 'r' ], name := [ 'r' ], type := [ 'r', 'e', 'c', 'u', 'r', 'r', 'i', 'n', 'g' ],
    schedule := [ 'd' ], command := [ 'x' ], cron := some ("0 30 9 * * *").data }

/-- A state holding only the recurring task. -/
def recState : SchedState := { tasks := [([ 'r' ], recTask)] }

/-- Claim C6 — counterexample.  The claim concludes that a fire occurs
within 60 seconds of every true target minute.  The poller ticks once per
60 s, so its ticks all land on the same second of the minute; the matcher
compares that second against the literal seconds field.  For
`cron = "0 30 9 * * *"` and a poller whose ticks land at second 30, the
ticks around the target minute 9:30 are 9:29:30, 9:30:30 and 9:31:30
(15 June, a Monday, in the fixture): the minute and hour fields match at
9:30:30, yet no tick fires — the seconds field `0` only matches a tick
landing exactly at second 0 — so the runner is never invoked within 60 s
of the target minute. -/
theorem C6_seconds_field_blocks_fire :
    cronTickFires ("0 30 9 * * *").data ⟨30, 29, 9, 15, 6, 1⟩ = false ∧
    cronTickFires ("0 30 9 * * *").data ⟨30, 30, 9, 15, 6, 1⟩ = false ∧
    cronTickFires ("0 30 9 * * *").data ⟨30, 31, 9, 15, 6, 1⟩ = false ∧
    matchesField [ '3', '0' ] 30 = true ∧
    matchesField [ '9' ] 9 = true ∧
    matchesField [ '0' ] 30 = false ∧
    cronTickFires ("0 30 9 * * *").data ⟨0, 30, 9, 15, 6, 1⟩ = true ∧
    cronTick recState [ 'r' ] ("0 30 9 * * *").data ⟨30, 30, 9, 15, 6, 1⟩ 0 (.ok {}) (.ok ()) =
      (recState, none, false) := by
  decide

/-- Claim C7 — counterexample.  The load loop fills the task map record
by record inside the `try`; a corrupt second record aborts the loop with
the first record already loaded, so the resulting task set has one entry,
not the empty set the claim promises for every load failure. -/
theorem C7_partial_load_not_empty :
    ¬ ((loadTasks 0 (fun _ => 0)
        (.ok [(("a.json").data, .ok { hbTask with enabled := false }),
              (("b.json").data, .error [ 'b', 'a', 'd' ])])).1.tasks = []) ∧
    (loadTasks 0 (fun _ => 0)
        (.ok [(("a.json").data, .ok { hbTask with enabled := false }),
              (("b.json").data, .error [ 'b', 'a', 'd' ])])).1.tasks.length = 1 ∧
    (loadTasks 0 (fun _ => 0)
        (.ok [(("a.json").data, .ok { hbTask with enabled := false }),
              (("b.json").data, .error [ 'b', 'a', 'd' ])])).2 = true := by
  decide


/-! ## Map-model lemmas -/

theorem keyAdd_mem_self (l : List (List Char)) (k : List Char) : k ∈ keyAdd l k := by
  unfold keyAdd
  split
  · next h => simpa using h
  · simp

theorem keyAdd_mem_mono (l : List (List Char)) (k x : List Char) (h : x ∈ l) :
    x ∈ keyAdd l k := by
  unfold keyAdd
  split
  · exact h
  · simp [h]

theorem keyDelete_not_mem (l : List (List Char)) (k : List Char) : k ∉ keyDelete l k := by
  intro hmem
  have := List.of_mem_filter hmem
  simp at this

theorem mapGet_mapSet_self (m : List (List Char × TaskRec)) (k : List Char) (v : TaskRec) :
    mapGet (mapSet m k v) k = some v := by
  induction m with
  | nil =>
    simp only [mapSet, mapGet]
    rw [List.find?_cons_of_pos _ (by simp)]
    rfl
  | cons p rest ih =>
    by_cases hk : p.1 = k
    · simp only [mapSet, if_pos hk, mapGet]
      rw [List.find?_cons_of_pos _ (by simp)]
      rfl
    · simp only [mapSet, if_neg hk, mapGet] at ih ⊢
      rw [List.find?_cons_of_neg _ (by simpa using hk)]
      exact ih

theorem mapGet_tasks_runningTasks (st : SchedState) (r : List (List Char)) (id : List Char) :
    mapGet { st with runningTasks := r }.tasks id = mapGet st.tasks id := rfl

/-! ## Runner guard lemmas -/

/-- Marking succeeds exactly when all three guards pass. -/
theorem runTaskStart_marks (st : SchedState) (id : List Char) (t : TaskRec)
    (hfound : mapGet st.tasks id = some t) (hrun : isRunning st id = false)
    (hstop : isStopped st id = false) :
    runTaskStart st id = (some { st with runningTasks := keyAdd st.runningTasks id }, .ran) := by
  have h1 : id ∉ st.runningTasks := by simpa [isRunning] using hrun
  have h2 : id ∉ st.stopFlags := by simpa [isStopped] using hstop
  unfold runTaskStart
  rw [hfound]
  simp [h1, h2]

/-- With the in-flight marker set and the task present, `runTask` is the
`alreadyRunning` early return and leaves the state untouched. -/
theorem runTask_skip_of_running (st : SchedState) (id : List Char)
    (hfound : (mapGet st.tasks id).isSome = true) (hrun : isRunning st id = true)
    (now : Int) (collab : Except (List Char) AgentResult) (sv : Except (List Char) Unit) :
    runTask st id now collab sv = (st, none, .alreadyRunning) := by
  have h1 : id ∈ st.runningTasks := by simpa [isRunning] using hrun
  unfold runTask runTaskStart
  cases hm : mapGet st.tasks id with
  | none => rw [hm] at hfound; simp at hfound
  | some t => simp [h1]

/-- The stats update of a completed run always increments `runCount` by
exactly one, whatever the collaborator outcome. -/
theorem runTaskFinish_runCount (st : SchedState) (id : List Char) (t : TaskRec)
    (hfound : mapGet st.tasks id = some t) (now : Int)
    (collab : Except (List Char) AgentResult) (sv : Except (List Char) Unit) :
    (mapGet (runTaskFinish st id now collab sv).1.tasks id).map (fun u => u.runCount) =
      some (t.runCount + 1) := by
  unfold runTaskFinish
  rw [hfound]
  cases collab with
  | ok r =>
    cases hr : r.error with
    | none => simp [hr, mapGet_mapSet_self]
    | some e =>
      by_cases he : e = [] <;> simp [hr, he, mapGet_mapSet_self]
  | error e => simp [mapGet_mapSet_self]

/-- Claim C4 — confirmed.  (i) When the guards pass, the runner marks the
task in flight; (ii) any invocation requested while that marker is set is
a complete no-op (the `alreadyRunning` early return fires before the
collaborator call, the state — hence every field of the task record — is
unchanged, nothing is thrown); (iii) completing the first run increments
`runCount` by exactly one — so two requests during one execution increase
`runCount` by 1, not 2. -/
theorem C4_inflight_guard (st : SchedState) (id : List Char) (t : TaskRec)
    (hfound : mapGet st.tasks id = some t) (hrun : isRunning st id = false)
    (hstop : isStopped st id = false) :
    runTaskStart st id = (some { st with runningTasks := keyAdd st.runningTasks id }, .ran) ∧
    (∀ now2 collab2 sv2,
      runTask { st with runningTasks := keyAdd st.runningTasks id } id now2 collab2 sv2 =
        ({ st with runningTasks := keyAdd st.runningTasks id }, none, .alreadyRunning)) ∧
    (∀ now collab sv,
      (mapGet (runTaskFinish { st with runningTasks := keyAdd st.runningTasks id }
          id now collab sv).1.tasks id).map (fun u => u.runCount) = some (t.runCount + 1)) ∧
    (∀ st2 now collab sv, isRunning st2 id = true → (mapGet st2.tasks id).isSome = true →
      runTask st2 id now collab sv = (st2, none, .alreadyRunning)) := by
  refine ⟨runTaskStart_marks st id t hfound hrun hstop, ?_, ?_, ?_⟩
  · intro now2 collab2 sv2
    apply runTask_skip_of_running
    · rw [mapGet_tasks_runningTasks, hfound]; rfl
    · simpa [isRunning] using keyAdd_mem_self st.runningTasks id
  · intro now collab sv
    exact runTaskFinish_runCount _ id t (by rw [mapGet_tasks_runningTasks]; exact hfound) now collab sv
  · intro st2 now collab sv h1 h2
    exact runTask_skip_of_running st2 id h2 h1 now collab sv

/-- Witness for C4 at the concrete fixture state. -/
theorem C4_inflight_guard_witness :
    mapGet hbState.tasks [ 'a' ] = some hbTask ∧ isRunning hbState [ 'a' ] = false ∧
    isStopped hbState [ 'a' ] = false ∧
    runTaskStart hbState [ 'a' ] =
      (some { hbState with runningTasks := keyAdd hbState.runningTasks [ 'a' ] }, .ran) := by
  have h := C4_inflight_guard hbState [ 'a' ] hbTask (by decide) (by decide) (by decide)
  exact ⟨by decide, by decide, by decide, h.1⟩

/-- Claim C5 — confirmed.  `requestStop` sets the stop flag and clears
the in-flight marker at once; any later runner invocation for that id
(with the record still present) takes the stop-guard early return: the
collaborator is not consulted and the state — in particular `runCount`
and `failureCount` — is unchanged. -/
theorem C5_requestStop_blocks_runner (st : SchedState) (id : List Char)
    (hfound : (mapGet st.tasks id).isSome = true) :
    isStopped (requestStop st id) id = true ∧
    isRunning (requestStop st id) id = false ∧
    (∀ now collab sv,
      runTask (requestStop st id) id now collab sv = (requestStop st id, none, .stopped)) := by
  have h1 : id ∉ (requestStop st id).runningTasks := by
    simp only [requestStop]
    exact keyDelete_not_mem _ _
  have h2 : id ∈ (requestStop st id).stopFlags := by
    simp only [requestStop]
    exact keyAdd_mem_self _ _
  refine ⟨?_, ?_, ?_⟩
  · simpa [isStopped] using h2
  · simpa [isRunning] using h1
  · intro now collab sv
    unfold runTask runTaskStart
    cases hm : mapGet (requestStop st id).tasks id with
    | none =>
      have heq : mapGet (requestStop st id).tasks id = mapGet st.tasks id := rfl
      rw [heq] at hm
      rw [hm] at hfound
      simp at hfound
    | some t => simp [h1, h2]

/-- Witness for C5 at the concrete fixture state. -/
theorem C5_requestStop_blocks_runner_witness :
    (mapGet hbState.tasks [ 'a' ]).isSome = true ∧
    isStopped (requestStop hbState [ 'a' ]) [ 'a' ] = true ∧
    runTask (requestStop hbState [ 'a' ]) [ 'a' ] 7 (.ok {}) (.ok ()) =
      (requestStop hbState [ 'a' ], none, .stopped) := by
  have h := C5_requestStop_blocks_runner hbState [ 'a' ] (by decide)
  exact ⟨by decide, h.1, h.2.2 7 (.ok {}) (.ok ())⟩

/-! ## Stop-flag preservation -/

theorem stopTask_stopFlags (st : SchedState) (id : List Char) :
    (stopTask st id).stopFlags = st.stopFlags := rfl

theorem requestStop_stopFlags (st : SchedState) (id : List Char) :
    (requestStop st id).stopFlags = keyAdd st.stopFlags id := rfl

theorem foldl_stopTask_stopFlags (l : List (List Char)) (st : SchedState) :
    (l.foldl stopTask st).stopFlags = st.stopFlags := by
  induction l generalizing st with
  | nil => rfl
  | cons a rest ih => rw [List.foldl_cons, ih, stopTask_stopFlags]

theorem addTask_stopFlags (st : SchedState) (nid : List Char) (now : Int)
    (dM : List Char → Int) (nm sc cmd : List Char) (os : Option (List Char)) (oc : List Msg)
    (om : Option Nat) (sv : Except (List Char) Unit) :
    (addTask st nid now dM nm sc cmd os oc om sv).1.stopFlags = st.stopFlags := by
  unfold addTask
  cases parseSchedule sc with
  | none => rfl
  | some p =>
    cases sv with
    | error e => rfl
    | ok u =>
      simp only []
      split <;> rfl

theorem runTaskFinish_stopFlags (st : SchedState) (id : List Char) (now : Int)
    (collab : Except (List Char) AgentResult) (sv : Except (List Char) Unit) :
    (runTaskFinish st id now collab sv).1.stopFlags = st.stopFlags := by
  unfold runTaskFinish
  cases mapGet st.tasks id <;> rfl

theorem runTask_stopFlags (st : SchedState) (id : List Char) (now : Int)
    (collab : Except (List Char) AgentResult) (sv : Except (List Char) Unit) :
    (runTask st id now collab sv).1.stopFlags = st.stopFlags := by
  unfold runTask runTaskStart
  cases mapGet st.tasks id with
  | none => rfl
  | some t =>
    by_cases h1 : id ∈ st.runningTasks
    · simp [h1]
    · by_cases h2 : id ∈ st.stopFlags
      · simp [h1, h2]
      · simp [h1, h2, runTaskFinish_stopFlags]

theorem removeTask_stopFlags (st : SchedState) (id : List Char) :
    (removeTask st id).1.stopFlags = st.stopFlags := by
  unfold removeTask
  cases mapGet st.tasks id <;> rfl

theorem pauseTask_stopFlags (st : SchedState) (id : List Char) (sv : Except (List Char) Unit) :
    (pauseTask st id sv).1.stopFlags = st.stopFlags := by
  unfold pauseTask
  cases mapGet st.tasks id <;> rfl

theorem resumeTask_stopFlags (st : SchedState) (id : List Char) (now : Int)
    (dM : List Char → Int) (sv : Except (List Char) Unit) :
    (resumeTask st id now dM sv).1.stopFlags = st.stopFlags := by
  unfold resumeTask
  cases mapGet st.tasks id <;> rfl

theorem shutdown_stopFlags (st : SchedState) : (shutdown st).stopFlags = st.stopFlags := by
  unfold shutdown
  exact foldl_stopTask_stopFlags _ _

/-- No operation ever removes a stop flag. -/
theorem applyOp_keeps_stopFlag (dM : List Char → Int) (st : SchedState) (op : Op)
    (id : List Char) (h : id ∈ st.stopFlags) : id ∈ (applyOp dM st op).stopFlags := by
  cases op with
  | addT nid now nm sc cmd sv => rw [applyOp, addTask_stopFlags]; exact h
  | removeT i => rw [applyOp, removeTask_stopFlags]; exact h
  | pauseT i sv => rw [applyOp, pauseTask_stopFlags]; exact h
  | resumeT i now sv => rw [applyOp, resumeTask_stopFlags]; exact h
  | requestStopT i => rw [applyOp, requestStop_stopFlags]; exact keyAdd_mem_mono _ _ _ h
  | stopT i => rw [applyOp, stopTask_stopFlags]; exact h
  | runT i now c sv => rw [applyOp, runTask_stopFlags]; exact h
  | shutdownT => rw [applyOp, shutdown_stopFlags]; exact h

theorem applyOps_keeps_stopFlag (dM : List Char → Int) (st : SchedState) (ops : List Op)
    (id : List Char) (h : id ∈ st.stopFlags) : id ∈ (applyOps dM st ops).stopFlags := by
  induction ops generalizing st with
  | nil => exact h
  | cons op rest ih =>
    rw [applyOps, List.foldl_cons]
    exact ih _ (applyOp_keeps_stopFlag dM st op id h)

/-- With the stop flag set, the runner never reaches the collaborator:
whichever guard fires, the state is unchanged and nothing is thrown. -/
theorem runTask_skip_of_stopFlag (st : SchedState) (id : List Char)
    (h : id ∈ st.stopFlags) (now : Int) (collab : Except (List Char) AgentResult)
    (sv : Except (List Char) Unit) :
    (runTask st id now collab sv).1 = st ∧ (runTask st id now collab sv).2.1 = none ∧
    (runTask st id now collab sv).2.2 ≠ RunOutcome.ran := by
  unfold runTask runTaskStart
  cases mapGet st.tasks id with
  | none => exact ⟨rfl, rfl, by simp⟩
  | some t =>
    by_cases h1 : id ∈ st.runningTasks
    · simp [h1]
    · simp [h1, h]

/-- Claim C10 — confirmed.  No operation of the scheduler ever clears a
stop flag: after `requestStop(id)`, any sequence of further operations
(add, remove, pause, resume, stop, run, another requestStop, shutdown)
leaves `isStopped id` true, and every later runner invocation for that
id takes one of the three early-return guards — the state is unchanged,
nothing is thrown, and the collaborator path is never reached. -/
theorem C10_stop_flag_durable (dM : List Char → Int) (st : SchedState) (id : List Char)
    (ops : List Op) :
    isStopped (applyOps dM (requestStop st id) ops) id = true ∧
    (∀ now collab sv,
      (runTask (applyOps dM (requestStop st id) ops) id now collab sv).1 =
        applyOps dM (requestStop st id) ops ∧
      (runTask (applyOps dM (requestStop st id) ops) id now collab sv).2.1 = none ∧
      (runTask (applyOps dM (requestStop st id) ops) id now collab sv).2.2 ≠ RunOutcome.ran) := by
  have hflag : id ∈ (applyOps dM (requestStop st id) ops).stopFlags :=
    applyOps_keeps_stopFlag dM (requestStop st id) ops id
      (by rw [requestStop_stopFlags]; exact keyAdd_mem_self _ _)
  refine ⟨by simpa [isStopped] using hflag, ?_⟩
  intro now collab sv
  exact runTask_skip_of_stopFlag _ id hflag now collab sv


/-- Claim C6 — amended.  For an armed recurring task with a six-field
cron expression (whose fields are cron syntax, not `current`-object key
names), a poller tick invokes the Task Runner if and only if all six
fields match the tick's current second, minute, hour, day-of-month,
month and day-of-week.  (The claim's further conclusion — that a fire
lands within 60 s of every true target minute — fails: see the
counterexample; it holds only when the seconds field matches the second
the poller's ticks land on.) -/
theorem C6_tick_fires_iff_fields_match (cron : List Char) (t : CurrentTime)
    (f1 f2 f3 f4 f5 f6 : List Char)
    (hsplit : splitOnChar ' ' cron = [f1, f2, f3, f4, f5, f6])
    (hk : ∀ f ∈ [f1, f2, f3, f4, f5, f6], currentGet t f = none) :
    ∀ st id now collab sv,
      ((cronTick st id cron t now collab sv).2.2 = true ↔
        (matchesField f1 t.second = true ∧ matchesField f2 t.minute = true ∧
         matchesField f3 t.hour = true ∧ matchesField f4 t.dayOfMonth = true ∧
         matchesField f5 t.month = true ∧ matchesField f6 t.dayOfWeek = true)) := by
  intro st id now collab sv
  have hv1 : tickValue t f1 0 = some t.second := by
    unfold tickValue; rw [hk f1 (by simp)]; rfl
  have hv2 : tickValue t f2 1 = some t.minute := by
    unfold tickValue; rw [hk f2 (by simp)]; rfl
  have hv3 : tickValue t f3 2 = some t.hour := by
    unfold tickValue; rw [hk f3 (by simp)]; rfl
  have hv4 : tickValue t f4 3 = some t.dayOfMonth := by
    unfold tickValue; rw [hk f4 (by simp)]; rfl
  have hv5 : tickValue t f5 4 = some t.month := by
    unfold tickValue; rw [hk f5 (by simp)]; rfl
  have hv6 : tickValue t f6 5 = some t.dayOfWeek := by
    unfold tickValue; rw [hk f6 (by simp)]; rfl
  have hrange : List.range ((6 : Nat)) = [0, 1, 2, 3, 4, 5] := by decide
  have hfires : cronTickFires cron t =
      (matchesField f1 t.second && matchesField f2 t.minute && matchesField f3 t.hour &&
       matchesField f4 t.dayOfMonth && matchesField f5 t.month && matchesField f6 t.dayOfWeek) := by
    have hlen : ([f1, f2, f3, f4, f5, f6] : List (List Char)).length = 6 := by
      simp
    simp only [cronTickFires, hsplit, hlen, hrange, List.all_cons, List.all_nil, List.getD,
      List.get?_cons_zero, List.get?_cons_succ, Option.getD_some]
    rw [hv1, hv2, hv3, hv4, hv5, hv6]
    simp [matchesFieldO, Bool.and_assoc]
  have hproj : (cronTick st id cron t now collab sv).2.2 = cronTickFires cron t := by
    unfold cronTick
    by_cases hf : cronTickFires cron t = true
    · simp [hf]
    · simp only [hf, if_neg, Bool.false_eq_true, not_false_eq_true, if_false]
  rw [hproj, hfires]
  cases hm1 : matchesField f1 t.second <;>
    cases hm2 : matchesField f2 t.minute <;>
    cases hm3 : matchesField f3 t.hour <;>
    cases hm4 : matchesField f4 t.dayOfMonth <;>
    cases hm5 : matchesField f5 t.month <;>
    cases hm6 : matchesField f6 t.dayOfWeek <;> simp

/-- Witness for the amended C6 at the parser's daily-at-9:30 expression
and the tick landing exactly on the target instant. -/
theorem C6_tick_fires_iff_fields_match_witness :
    splitOnChar ' ' (("0 30 9 * * *").data) =
      [[ '0' ], [ '3', '0' ], [ '9' ], [ '*' ], [ '*' ], [ '*' ]] ∧
    ((cronTick recState [ 'r' ] (("0 30 9 * * *").data) ⟨0, 30, 9, 15, 6, 1⟩ 0
        (.ok {}) (.ok ())).2.2 = true ↔
      (matchesField [ '0' ] 0 = true ∧ matchesField [ '3', '0' ] 30 = true ∧
       matchesField [ '9' ] 9 = true ∧ matchesField [ '*' ] 15 = true ∧
       matchesField [ '*' ] 6 = true ∧ matchesField [ '*' ] 1 = true)) :=
  ⟨by decide,
   C6_tick_fires_iff_fields_match (("0 30 9 * * *").data) ⟨0, 30, 9, 15, 6, 1⟩
     [ '0' ] [ '3', '0' ] [ '9' ] [ '*' ] [ '*' ] [ '*' ] (by decide)
     (by intro f hf; fin_cases hf <;> decide) recState [ 'r' ] 0 (.ok {}) (.ok ())⟩

/-! ## Load-loop characterisation -/

/-- Whether a store record parses (its `JSON.parse` does not throw). -/
def okEntry (f : List Char × Except (List Char) TaskRec) : Bool :=
  match f.2 with
  | .ok _ => true
  | .error _ => false

/-- The parsed records of a list of store entries. -/
def okTasks (l : List (List Char × Except (List Char) TaskRec)) : List TaskRec :=
  l.filterMap (fun f =>
    match f.2 with
    | .ok d => some d
    | .error _ => none)

/-- The arming step the load loop applies to each parsed record. -/
def armLoaded (now : Int) (dateMs : List Char → Int) (d : TaskRec) : TaskRec :=
  if d.enabled && !(d.type == [ 'o', 'n', 'e', '-', 't', 'i', 'm', 'e' ])
    then scheduleTask now dateMs d else d

/-- The `.json`-name filter applied before the load loop. -/
def jsonEntry (f : List Char × Except (List Char) TaskRec) : Bool :=
  endsWithJ [ '.', 'j', 's', 'o', 'n' ] f.1

theorem mapSet_fresh (m : List (List Char × TaskRec)) (k : List Char) (v : TaskRec)
    (h : mapGet m k = none) : mapSet m k v = m ++ [(k, v)] := by
  induction m with
  | nil => rfl
  | cons p rest ih =>
    simp only [mapGet] at h ih
    by_cases hb : p.1 = k
    · rw [List.find?_cons_of_pos _ (by simpa using hb)] at h
      simp at h
    · rw [List.find?_cons_of_neg _ (by simpa using hb)] at h
      simp only [mapSet, if_neg hb, List.cons_append, List.cons.injEq, true_and]
      exact ih h

theorem mapGet_append_sing (m : List (List Char × TaskRec)) (k k2 : List Char) (v : TaskRec)
    (h : mapGet m k = none) (hne : k2 ≠ k) : mapGet (m ++ [(k2, v)]) k = none := by
  simp only [mapGet] at h ⊢
  rw [List.find?_append]
  rw [show List.find? (fun p => p.1 == k) m = none from by
    cases hf : List.find? (fun p => p.1 == k) m with
    | none => rfl
    | some x => rw [hf] at h; simp at h]
  have hb : (k2 == k) = false := by simpa using hne
  simp [List.find?, hb]

/-- What the load loop computes: the records are processed in order, the
first unparseable one aborts with the warning flag set, and each parsed
record is appended (armed when enabled and not one-time). -/
theorem loadLoop_spec (now : Int) (dM : List Char → Int)
    (l : List (List Char × Except (List Char) TaskRec)) (st : SchedState)
    (hfresh : ∀ d ∈ okTasks (l.takeWhile okEntry),
      mapGet st.tasks (armLoaded now dM d).id = none)
    (hnodup : ((okTasks (l.takeWhile okEntry)).map (fun d => (armLoaded now dM d).id)).Nodup) :
    loadLoop now dM l st =
      ({ st with tasks := st.tasks ++ (okTasks (l.takeWhile okEntry)).map (fun d => ((armLoaded now dM d).id, armLoaded now dM d)) },
       !(l.all okEntry)) := by
  induction l generalizing st with
  | nil => simp [loadLoop, okTasks]
  | cons f rest ih =>
    obtain ⟨n, content⟩ := f
    cases content with
    | error e =>
      have hok : okEntry (n, Except.error e) = false := rfl
      rw [List.takeWhile_cons_of_neg (by simp [hok])]
      simp [loadLoop, okTasks, List.all_cons, hok]
    | ok d =>
      have hok : okEntry (n, Except.ok d) = true := rfl
      rw [List.takeWhile_cons_of_pos hok] at hfresh hnodup ⊢
      have hocons : okTasks ((n, Except.ok d) :: rest.takeWhile okEntry) =
          d :: okTasks (rest.takeWhile okEntry) := by
        simp [okTasks, List.filterMap_cons]
      rw [hocons] at hfresh hnodup ⊢
      have hdfresh : mapGet st.tasks (armLoaded now dM d).id = none :=
        hfresh d (by simp)
      have harm : (if d.enabled && !(d.type == [ 'o', 'n', 'e', '-', 't', 'i', 'm', 'e' ])
          then scheduleTask now dM d else d) = armLoaded now dM d := rfl
      rw [List.map_cons] at hnodup
      have hnodup' := List.nodup_cons.mp hnodup
      have hrest : loadLoop now dM rest
          { st with tasks := st.tasks ++ [((armLoaded now dM d).id, armLoaded now dM d)] } =
          ({ st with tasks := (st.tasks ++ [((armLoaded now dM d).id, armLoaded now dM d)]) ++ (okTasks (rest.takeWhile okEntry)).map (fun u => ((armLoaded now dM u).id, armLoaded now dM u)) },
           !(rest.all okEntry)) := by
        apply ih
        · intro u hu
          apply mapGet_append_sing
          · exact hfresh u (by simp [hu])
          · intro heq
            exact hnodup'.1 (heq ▸ (List.mem_map_of_mem _ hu))
        · exact hnodup'.2
      show loadLoop now dM rest
          { st with tasks := mapSet st.tasks (armLoaded now dM d).id (armLoaded now dM d) } = _
      rw [mapSet_fresh _ _ _ hdfresh, hrest]
      simp [List.all_cons, hok, List.append_assoc]

/-- Claim C7 — amended.  `loadTasks` never throws (it is total on every
store content): a directory-read failure yields the empty task set with
a logged warning, and an unparseable record aborts the loop with the
warning logged while keeping exactly the records read before it — the
task set is empty only when the failure precedes the first parsed
record. -/
theorem C7_load_failure_keeps_loaded (now : Int) (dM : List Char → Int)
    (fs : List (List Char × Except (List Char) TaskRec))
    (hnodup : ((okTasks ((fs.filter jsonEntry).takeWhile okEntry)).map
      (fun d => (armLoaded now dM d).id)).Nodup) :
    (loadTasks now dM (.ok fs)).1.tasks =
      (okTasks ((fs.filter jsonEntry).takeWhile okEntry)).map (fun d => ((armLoaded now dM d).id, armLoaded now dM d)) ∧
    (loadTasks now dM (.ok fs)).2 = !((fs.filter jsonEntry).all okEntry) ∧
    (∀ e, loadTasks now dM (.error e) = (⟨[], [], []⟩, true)) := by
  have h := loadLoop_spec now dM (fs.filter jsonEntry) ⟨[], [], []⟩
    (fun d _ => rfl) hnodup
  have hload : loadTasks now dM (.ok fs) = loadLoop now dM (fs.filter jsonEntry) ⟨[], [], []⟩ := rfl
  refine ⟨?_, ?_, fun e => rfl⟩
  · rw [hload, h]
    simp
  · rw [hload, h]

/-- Witness for the amended C7: a good record, then a corrupt one, then
another good one — only the first survives and the warning is logged. -/
theorem C7_load_failure_keeps_loaded_witness :
    (loadTasks 0 (fun _ => 0)
        (.ok [(("a.json").data, .ok { hbTask with enabled := false }),
              (("b.json").data, .error [ 'b', 'a', 'd' ]),
              (("c.json").data, .ok hbTask2)])).1.tasks =
      [([ 'a' ], { hbTask with enabled := false })] ∧
    (loadTasks 0 (fun _ => 0)
        (.ok [(("a.json").data, .ok { hbTask with enabled := false }),
              (("b.json").data, .error [ 'b', 'a', 'd' ]),
              (("c.json").data, .ok hbTask2)])).2 = true ∧
    loadTasks 0 (fun _ => 0) (.error [ 'n', 'o' ]) = (⟨[], [], []⟩, true) := by
  have h := C7_load_failure_keeps_loaded 0 (fun _ => 0)
    [(("a.json").data, .ok { hbTask with enabled := false }),
     (("b.json").data, .error [ 'b', 'a', 'd' ]),
     (("c.json").data, .ok hbTask2)] (by decide)
  refine ⟨?_, ?_, h.2.2 [ 'n', 'o' ]⟩
  · rw [h.1]; decide
  · rw [h.2.1]; decide

/-- Claim C8 — amended.  A `saveTask` failure is not caught anywhere: it
propagates to the caller of the state-changing operation.  In `runTask`
the `finally` block has already cleared the in-flight marker and the
stats update has been applied when the failing save throws, so the task
record is consistent although the exception escapes the runner;
`pauseTask` and `resumeTask` rethrow the same failure. -/
theorem C8_save_failure_effects (st : SchedState) (id : List Char) (t : TaskRec)
    (now : Int) (r : AgentResult) (e : List Char)
    (hfound : mapGet st.tasks id = some t) (hrun : isRunning st id = false)
    (hstop : isStopped st id = false) :
    (runTask st id now (.ok r) (.error e)).2.1 = some e ∧
    (runTask st id now (.ok r) (.error e)).2.2 = RunOutcome.ran ∧
    isRunning (runTask st id now (.ok r) (.error e)).1 id = false ∧
    (mapGet (runTask st id now (.ok r) (.error e)).1.tasks id).map (fun u => u.runCount) =
      some (t.runCount + 1) ∧
    (pauseTask st id (.error e)).2.1 = some e ∧
    (∀ dM, (resumeTask st id now dM (.error e)).2.1 = some e) := by
  have hstart := runTaskStart_marks st id t hfound hrun hstop
  have hrt : runTask st id now (.ok r) (.error e) =
      ((runTaskFinish { st with runningTasks := keyAdd st.runningTasks id } id now (.ok r) (.error e)).1,
       (runTaskFinish { st with runningTasks := keyAdd st.runningTasks id } id now (.ok r) (.error e)).2,
       RunOutcome.ran) := by
    unfold runTask
    rw [hstart]
  have hfound1 : mapGet { st with runningTasks := keyAdd st.runningTasks id }.tasks id = some t := by
    rw [mapGet_tasks_runningTasks]; exact hfound
  refine ⟨?_, ?_, ?_, ?_, ?_, ?_⟩
  · rw [hrt]
    unfold runTaskFinish
    rw [hfound1]
    cases hr : r.error with
    | none => rfl
    | some x => by_cases hx : x = [] <;> simp [hx, saveThrown]
  · rw [hrt]
  · rw [hrt]
    unfold runTaskFinish
    rw [hfound1]
    have hclear : ∀ u : TaskRec,
        ({ { st with runningTasks := keyAdd st.runningTasks id } with
            tasks := mapSet { st with runningTasks := keyAdd st.runningTasks id }.tasks id u,
            runningTasks := keyDelete (keyAdd st.runningTasks id) id } : SchedState).runningTasks.contains id = false := by
      intro u
      have := keyDelete_not_mem (keyAdd st.runningTasks id) id
      simpa using this
    cases hr : r.error with
    | none => simpa [isRunning] using keyDelete_not_mem (keyAdd st.runningTasks id) id
    | some x =>
      by_cases hx : x = [] <;>
        simpa [isRunning, hx] using keyDelete_not_mem (keyAdd st.runningTasks id) id
  · rw [hrt]
    exact runTaskFinish_runCount _ id t hfound1 now _ _
  · unfold pauseTask
    rw [hfound]
    rfl
  · intro dM
    unfold resumeTask
    rw [hfound]
    rfl

/-- Witness for the amended C8 at the concrete fixture state. -/
theorem C8_save_failure_effects_witness :
    mapGet hbState.tasks [ 'a' ] = some hbTask ∧
    (runTask hbState [ 'a' ] 50 (.ok {}) (.error [ 'd' ])).2.1 = some [ 'd' ] ∧
    (mapGet (runTask hbState [ 'a' ] 50 (.ok {}) (.error [ 'd' ])).1.tasks [ 'a' ]).map
      (fun u => u.runCount) = some (hbTask.runCount + 1) := by
  have h := C8_save_failure_effects hbState [ 'a' ] hbTask 50 {} [ 'd' ]
    (by decide) (by decide) (by decide)
  exact ⟨by decide, h.1, h.2.2.2.1⟩

/-! ## Claim C9: symbolic evaluation of the daily-at-H:MM parse -/

theorem digit_bounds (c : Char) (h : jsDigit c = true) : '0' ≤ c ∧ c ≤ '9' := by
  simpa only [jsDigit, Bool.and_eq_true, decide_eq_true_eq] using h

theorem digit_ne_gt (c d : Char) (h : jsDigit c = true) (hd : ('9' : Char) < d) : (c = d) = False := by
  simp [ne_of_lt (lt_of_le_of_lt (digit_bounds c h).2 hd)]

theorem digit_ne_lt (c d : Char) (h : jsDigit c = true) (hd : d < ('0' : Char)) : (c = d) = False := by
  simp [(ne_of_lt (lt_of_lt_of_le hd (digit_bounds c h).1)).symm]

theorem digit_not_space (c : Char) (h : jsDigit c = true) : jsSpace c = false := by
  have h1 := (digit_ne_lt c ' ' h (by decide))
  have h2 := (digit_ne_lt c '\t' h (by decide))
  have h3 := (digit_ne_lt c '\n' h (by decide))
  have h4 := (digit_ne_lt c '\r' h (by decide))
  simp [jsSpace, h1, h2, h3, h4]

-- engine unfolding lemmas
theorem matchItems_nil {cs : List Char} {cont : List Char → Option (List (List Char))} :
    matchItems [] cs cont = cont cs := rfl

theorem matchItems_atom {a : Atom} {is : List Item} {cs : List Char}
    {cont : List Char → Option (List (List Char))} :
    matchItems (.atom a :: is) cs cont = matchAtom a cs (fun cs2 => matchItems is cs2 cont) := rfl

theorem matchItems_group {body : List Atom} {is : List Item} {cs : List Char}
    {cont : List Char → Option (List (List Char))} :
    matchItems (.group body :: is) cs cont =
      matchAtoms body cs (fun cs2 =>
        (matchItems is cs2 cont).map (fun caps => cs.take (cs.length - cs2.length) :: caps)) := rfl

theorem matchAtoms_nil {α : Type} {cs : List Char} {cont : List Char → Option α} :
    matchAtoms [] cs cont = cont cs := rfl

theorem matchAtoms_cons {α : Type} {a : Atom} {as : List Atom} {cs : List Char}
    {cont : List Char → Option α} :
    matchAtoms (a :: as) cs cont = matchAtom a cs (fun cs2 => matchAtoms as cs2 cont) := rfl

theorem matchAtom_lit_cons {α : Type} {c x : Char} {xs : List Char} {cont : List Char → Option α} :
    matchAtom (.lit c) (x :: xs) cont = if x = c then cont xs else none := rfl

theorem matchAtom_lit_nil {α : Type} {c : Char} {cont : List Char → Option α} :
    matchAtom (.lit c) [] cont = none := rfl

theorem matchAtom_klass_eq {α : Type} {k : CClass} {lo : Nat} {hi : Option Nat} {cs : List Char}
    {cont : List Char → Option α} :
    matchAtom (.klass k lo hi) cs cont =
      (candidates lo (match hi with
        | some h => min (maxRun k cs) h
        | none => maxRun k cs)).findSome? (fun n => cont (cs.drop n)) := rfl

theorem maxRun_cons {k : CClass} {c : Char} {cs : List Char} :
    maxRun k (c :: cs) = if k.test c then maxRun k cs + 1 else 0 := rfl

theorem maxRun_nil {k : CClass} : maxRun k [] = 0 := rfl

theorem test_digit {c : Char} : CClass.test .digit c = jsDigit c := rfl
theorem test_space {c : Char} : CClass.test .space c = jsSpace c := rfl

theorem mi_lit_ne {c x : Char} {is : List Item} {xs : List Char}
    {cont : List Char → Option (List (List Char))} (h : (x = c) = False) :
    matchItems (.atom (.lit c) :: is) (x :: xs) cont = none := by
  simp [matchItems_atom, matchAtom_lit_cons, h]

theorem mi_lit_nil {c : Char} {is : List Item} {cont : List Char → Option (List (List Char))} :
    matchItems (.atom (.lit c) :: is) [] cont = none := rfl

theorem mi_lit_eq {c x : Char} {is : List Item} {xs : List Char}
    {cont : List Char → Option (List (List Char))} (h : x = c) :
    matchItems (.atom (.lit c) :: is) (x :: xs) cont = matchItems is xs cont := by
  simp [matchItems_atom, matchAtom_lit_cons, h]

theorem search_cons_none {re : List Item} {x : Char} {xs : List Char}
    (h : matchItems re (x :: xs) (fun _ => some []) = none) :
    search re (x :: xs) = search re xs := by
  simp [search, h]

theorem search_cons_some {re : List Item} {x : Char} {xs : List Char}
    {caps : List (List Char)}
    (h : matchItems re (x :: xs) (fun _ => some []) = some caps) :
    search re (x :: xs) = some caps := by
  simp [search, h]


theorem search_nil_none {re : List Item}
    (h : matchItems re [] (fun _ => some []) = none) : search re [] = none := by
  simp [search, h]

theorem oneTimeRe_eq : oneTimeRe = [.atom (.lit 'a'), .atom (.lit 't'), .atom sPlus,
    .group [dK 4 4, .lit '-', dK 2 2, .lit '-', dK 2 2, sPlus, dK 1 2, .lit ':', dK 2 2]] := rfl

theorem heartbeatRe_eq : heartbeatRe = [.atom (.lit 'e'), .atom (.lit 'v'), .atom (.lit 'e'),
    .atom (.lit 'r'), .atom (.lit 'y'), .atom sPlus, .group [.klass .digit 1 none], .atom sStar,
    .group [.alts [ [ 'm', 'i', 'n', 'u', 't', 'e' ], [ 'm', 'i', 'n', 'u', 't', 'e', 's' ],
      [ 'h', 'o', 'u', 'r' ], [ 'h', 'o', 'u', 'r', 's' ],
      [ 'd', 'a', 'y' ], [ 'd', 'a', 'y', 's' ] ]]] := rfl

theorem dailyRe_eq : dailyRe = [.atom (.lit 'd'), .atom (.lit 'a'), .atom (.lit 'i'),
    .atom (.lit 'l'), .atom (.lit 'y'), .atom sPlus, .atom (.lit 'a'), .atom (.lit 't'),
    .atom sPlus, .group [dK 1 2, .lit ':', dK 2 2]] := rfl

-- oneTime fails on the 1-digit-hour daily phrase
theorem oneTime_fail_1 (c m1 m2 : Char) (hc : jsDigit c = true) (h1 : jsDigit m1 = true)
    (h2 : jsDigit m2 = true) :
    search oneTimeRe [ 'd', 'a', 'i', 'l', 'y', ' ', 'a', 't', ' ', c, ':', m1, m2 ] = none := by
  have hca := digit_ne_gt c 'a' hc (by decide)
  have h1a := digit_ne_gt m1 'a' h1 (by decide)
  have h2a := digit_ne_gt m2 'a' h2 (by decide)
  have hcs := digit_not_space c hc
  have hcd : jsDigit ':' = false := by decide
  have hsp : jsSpace ' ' = true := by decide
  have hc41 : candidates 4 1 = [] := by decide
  have hc11 : candidates 1 1 = [1] := by decide
  rw [oneTimeRe_eq]
  rw [search_cons_none (mi_lit_ne (by decide))]
  rw [search_cons_none (by rw [mi_lit_eq rfl]; exact mi_lit_ne (by decide))]
  rw [search_cons_none (mi_lit_ne (by decide))]
  rw [search_cons_none (mi_lit_ne (by decide))]
  rw [search_cons_none (mi_lit_ne (by decide))]
  rw [search_cons_none (mi_lit_ne (by decide))]
  rw [search_cons_none ?pos6]
  case pos6 =>
    rw [mi_lit_eq rfl, mi_lit_eq rfl]
    simp only [sPlus, dK, matchItems_atom, matchItems_group, matchAtoms_cons, matchAtoms_nil,
      matchAtom_klass_eq, maxRun_cons, maxRun_nil, test_space, test_digit, hcs, hc, hcd, hsp,
      if_true, if_false, Bool.false_eq_true, Nat.add_zero, Nat.zero_add, hc41, hc11,
      List.findSome?_cons, List.findSome?_nil, List.drop]
    norm_num [hc41, hc11, List.findSome?_nil]
  rw [search_cons_none (mi_lit_ne (by decide))]
  rw [search_cons_none (mi_lit_ne (by decide))]
  rw [search_cons_none (mi_lit_ne hca)]
  rw [search_cons_none (mi_lit_ne (by decide))]
  rw [search_cons_none (mi_lit_ne h1a)]
  rw [search_cons_none (mi_lit_ne h2a)]
  exact search_nil_none mi_lit_nil

-- heartbeat fails on the 1-digit-hour daily phrase
theorem hb_fail_1 (c m1 m2 : Char) (hc : jsDigit c = true) (h1 : jsDigit m1 = true)
    (h2 : jsDigit m2 = true) :
    search heartbeatRe [ 'd', 'a', 'i', 'l', 'y', ' ', 'a', 't', ' ', c, ':', m1, m2 ] = none := by
  have hce := digit_ne_gt c 'e' hc (by decide)
  have h1e := digit_ne_gt m1 'e' h1 (by decide)
  have h2e := digit_ne_gt m2 'e' h2 (by decide)
  rw [heartbeatRe_eq]
  rw [search_cons_none (mi_lit_ne (by decide))]
  rw [search_cons_none (mi_lit_ne (by decide))]
  rw [search_cons_none (mi_lit_ne (by decide))]
  rw [search_cons_none (mi_lit_ne (by decide))]
  rw [search_cons_none (mi_lit_ne (by decide))]
  rw [search_cons_none (mi_lit_ne (by decide))]
  rw [search_cons_none (mi_lit_ne (by decide))]
  rw [search_cons_none (mi_lit_ne (by decide))]
  rw [search_cons_none (mi_lit_ne (by decide))]
  rw [search_cons_none (mi_lit_ne hce)]
  rw [search_cons_none (mi_lit_ne (by decide))]
  rw [search_cons_none (mi_lit_ne h1e)]
  rw [search_cons_none (mi_lit_ne h2e)]
  exact search_nil_none mi_lit_nil

-- daily succeeds at position 0 on the 1-digit-hour phrase
theorem daily_succ_1 (c m1 m2 : Char) (hc : jsDigit c = true) (h1 : jsDigit m1 = true)
    (h2 : jsDigit m2 = true) :
    search dailyRe [ 'd', 'a', 'i', 'l', 'y', ' ', 'a', 't', ' ', c, ':', m1, m2 ] =
      some [[ c, ':', m1, m2 ]] := by
  have hcs := digit_not_space c hc
  have hcd : jsDigit ':' = false := by decide
  have hsp : jsSpace ' ' = true := by decide
  have hsa : jsSpace 'a' = false := by decide
  have hc11 : candidates 1 1 = [1] := by decide
  have hc22 : candidates 2 2 = [2] := by decide
  rw [dailyRe_eq]
  apply search_cons_some
  rw [mi_lit_eq rfl, mi_lit_eq rfl, mi_lit_eq rfl, mi_lit_eq rfl]
  simp only [sPlus, dK, matchItems_atom, matchItems_group, matchItems_nil, matchAtoms_cons,
    matchAtoms_nil, matchAtom_klass_eq, matchAtom_lit_cons, maxRun_cons, maxRun_nil,
    test_space, test_digit, hcs, hc, h1, h2, hcd, hsp, hsa,
    if_true, if_false, Bool.false_eq_true, Nat.add_zero, Nat.zero_add, hc11, hc22,
    List.findSome?_cons, List.findSome?_nil, List.drop]
  norm_num [hc11, hc22, List.findSome?_cons, List.findSome?_nil]
  simp [matchAtom_lit_cons, hc22, maxRun_cons, maxRun_nil, test_digit, h1, h2,
    List.findSome?_cons, List.drop, List.take]

theorem oneTime_fail_2 (c1 c2 m1 m2 : Char) (hc1 : jsDigit c1 = true) (hc2 : jsDigit c2 = true)
    (h1 : jsDigit m1 = true) (h2 : jsDigit m2 = true) :
    search oneTimeRe [ 'd', 'a', 'i', 'l', 'y', ' ', 'a', 't', ' ', c1, c2, ':', m1, m2 ] = none := by
  have hc1a := digit_ne_gt c1 'a' hc1 (by decide)
  have hc2a := digit_ne_gt c2 'a' hc2 (by decide)
  have h1a := digit_ne_gt m1 'a' h1 (by decide)
  have h2a := digit_ne_gt m2 'a' h2 (by decide)
  have hcs1 := digit_not_space c1 hc1
  have hcs2 := digit_not_space c2 hc2
  have hcd : jsDigit ':' = false := by decide
  have hsp : jsSpace ' ' = true := by decide
  have hc42 : candidates 4 2 = [] := by decide
  have hc11 : candidates 1 1 = [1] := by decide
  rw [oneTimeRe_eq]
  rw [search_cons_none (mi_lit_ne (by decide))]
  rw [search_cons_none (by rw [mi_lit_eq rfl]; exact mi_lit_ne (by decide))]
  rw [search_cons_none (mi_lit_ne (by decide))]
  rw [search_cons_none (mi_lit_ne (by decide))]
  rw [search_cons_none (mi_lit_ne (by decide))]
  rw [search_cons_none (mi_lit_ne (by decide))]
  rw [search_cons_none ?pos6]
  case pos6 =>
    rw [mi_lit_eq rfl, mi_lit_eq rfl]
    simp only [sPlus, dK, matchItems_atom, matchItems_group, matchAtoms_cons, matchAtoms_nil,
      matchAtom_klass_eq, maxRun_cons, maxRun_nil, test_space, test_digit, hcs1, hcs2, hc1, hc2,
      hcd, hsp, if_true, if_false, Bool.false_eq_true, Nat.add_zero, Nat.zero_add, hc42, hc11,
      List.findSome?_cons, List.findSome?_nil, List.drop]
    norm_num [hc42, hc11, List.findSome?_nil]
  rw [search_cons_none (mi_lit_ne (by decide))]
  rw [search_cons_none (mi_lit_ne (by decide))]
  rw [search_cons_none (mi_lit_ne hc1a)]
  rw [search_cons_none (mi_lit_ne hc2a)]
  rw [search_cons_none (mi_lit_ne (by decide))]
  rw [search_cons_none (mi_lit_ne h1a)]
  rw [search_cons_none (mi_lit_ne h2a)]
  exact search_nil_none mi_lit_nil

theorem hb_fail_2 (c1 c2 m1 m2 : Char) (hc1 : jsDigit c1 = true) (hc2 : jsDigit c2 = true)
    (h1 : jsDigit m1 = true) (h2 : jsDigit m2 = true) :
    search heartbeatRe [ 'd', 'a', 'i', 'l', 'y', ' ', 'a', 't', ' ', c1, c2, ':', m1, m2 ] = none := by
  have hc1e := digit_ne_gt c1 'e' hc1 (by decide)
  have hc2e := digit_ne_gt c2 'e' hc2 (by decide)
  have h1e := digit_ne_gt m1 'e' h1 (by decide)
  have h2e := digit_ne_gt m2 'e' h2 (by decide)
  rw [heartbeatRe_eq]
  rw [search_cons_none (mi_lit_ne (by decide))]
  rw [search_cons_none (mi_lit_ne (by decide))]
  rw [search_cons_none (mi_lit_ne (by decide))]
  rw [search_cons_none (mi_lit_ne (by decide))]
  rw [search_cons_none (mi_lit_ne (by decide))]
  rw [search_cons_none (mi_lit_ne (by decide))]
  rw [search_cons_none (mi_lit_ne (by decide))]
  rw [search_cons_none (mi_lit_ne (by decide))]
  rw [search_cons_none (mi_lit_ne (by decide))]
  rw [search_cons_none (mi_lit_ne hc1e)]
  rw [search_cons_none (mi_lit_ne hc2e)]
  rw [search_cons_none (mi_lit_ne (by decide))]
  rw [search_cons_none (mi_lit_ne h1e)]
  rw [search_cons_none (mi_lit_ne h2e)]
  exact search_nil_none mi_lit_nil

theorem daily_succ_2 (c1 c2 m1 m2 : Char) (hc1 : jsDigit c1 = true) (hc2 : jsDigit c2 = true)
    (h1 : jsDigit m1 = true) (h2 : jsDigit m2 = true) :
    search dailyRe [ 'd', 'a', 'i', 'l', 'y', ' ', 'a', 't', ' ', c1, c2, ':', m1, m2 ] =
      some [[ c1, c2, ':', m1, m2 ]] := by
  have hcs1 := digit_not_space c1 hc1
  have hcd : jsDigit ':' = false := by decide
  have hsp : jsSpace ' ' = true := by decide
  have hsa : jsSpace 'a' = false := by decide
  have hc11 : candidates 1 1 = [1] := by decide
  have hc12 : candidates 1 2 = [2, 1] := by decide
  have hc22 : candidates 2 2 = [2] := by decide
  rw [dailyRe_eq]
  apply search_cons_some
  rw [mi_lit_eq rfl, mi_lit_eq rfl, mi_lit_eq rfl, mi_lit_eq rfl]
  simp only [sPlus, dK, matchItems_atom, matchItems_group, matchItems_nil, matchAtoms_cons,
    matchAtoms_nil, matchAtom_klass_eq, matchAtom_lit_cons, maxRun_cons, maxRun_nil,
    test_space, test_digit, hcs1, hc1, hc2, h1, h2, hcd, hsp, hsa,
    if_true, if_false, Bool.false_eq_true, Nat.add_zero, Nat.zero_add, hc11, hc12, hc22,
    List.findSome?_cons, List.findSome?_nil, List.drop]
  norm_num [hc11, hc12, hc22, List.findSome?_cons, List.findSome?_nil]
  simp [matchAtom_lit_cons, hc22, maxRun_cons, maxRun_nil, test_digit, h1, h2,
    List.findSome?_cons, List.drop, List.take]

theorem digit_ne_colon (c : Char) (h : jsDigit c = true) : (c = ':') = False :=
  digit_ne_gt c ':' h (by decide)

theorem digit_toLower (c : Char) (h : jsDigit c = true) : jsToLower c = c := by
  have hna : ¬ ('A' ≤ c) := by
    intro hcin
    exact absurd (lt_of_le_of_lt (digit_bounds c h).2 (by decide : ('9' : Char) < 'A'))
      (not_lt.mpr hcin)
  simp [jsToLower, hna]

theorem parse_daily_1 (c m1 m2 : Char) (hc : jsDigit c = true) (h1 : jsDigit m1 = true)
    (h2 : jsDigit m2 = true) :
    parseSchedule [ 'd', 'a', 'i', 'l', 'y', ' ', 'a', 't', ' ', c, ':', m1, m2 ] =
      some (.recurring [ '0', ' ', m1, m2, ' ', c, ' ', '*', ' ', '*', ' ', '*' ]) := by
  have hlit : ∀ x : Char, x ∈ ([ 'd', 'a', 'i', 'l', 'y', ' ', 't', ':' ] : List Char) →
      jsToLower x = x := by decide
  have htl : toLowerChars [ 'd', 'a', 'i', 'l', 'y', ' ', 'a', 't', ' ', c, ':', m1, m2 ] =
      [ 'd', 'a', 'i', 'l', 'y', ' ', 'a', 't', ' ', c, ':', m1, m2 ] := by
    simp only [toLowerChars, List.map]
    rw [digit_toLower c hc, digit_toLower m1 h1, digit_toLower m2 h2,
      hlit 'd' (by decide), hlit 'a' (by decide), hlit 'i' (by decide), hlit 'l' (by decide),
      hlit 'y' (by decide), hlit ' ' (by decide), hlit 't' (by decide), hlit ':' (by decide)]
  have hrev : ([ 'd', 'a', 'i', 'l', 'y', ' ', 'a', 't', ' ', c, ':', m1, m2 ] : List Char).reverse =
      [ m2, m1, ':', c, ' ', 't', 'a', ' ', 'y', 'l', 'i', 'a', 'd' ] := by
    simp
  have htr : trimChars [ 'd', 'a', 'i', 'l', 'y', ' ', 'a', 't', ' ', c, ':', m1, m2 ] =
      [ 'd', 'a', 'i', 'l', 'y', ' ', 'a', 't', ' ', c, ':', m1, m2 ] := by
    unfold trimChars
    rw [List.dropWhile_cons]
    rw [if_neg (by decide)]
    rw [hrev, List.dropWhile_cons, if_neg (by simp [digit_not_space m2 h2]), ← hrev,
      List.reverse_reverse]
  have hsplit : splitOnChar ':' [ c, ':', m1, m2 ] = [[ c ], [ m1, m2 ]] := by
    simp [splitOnChar, digit_ne_colon c hc, digit_ne_colon m1 h1, digit_ne_colon m2 h2]
  simp only [parseSchedule, htl, htr, oneTime_fail_1 c m1 m2 hc h1 h2,
    hb_fail_1 c m1 m2 hc h1 h2, daily_succ_1 c m1 m2 hc h1 h2]
  simp [hsplit]

theorem parse_daily_2 (c1 c2 m1 m2 : Char) (hc1 : jsDigit c1 = true) (hc2 : jsDigit c2 = true)
    (h1 : jsDigit m1 = true) (h2 : jsDigit m2 = true) :
    parseSchedule [ 'd', 'a', 'i', 'l', 'y', ' ', 'a', 't', ' ', c1, c2, ':', m1, m2 ] =
      some (.recurring [ '0', ' ', m1, m2, ' ', c1, c2, ' ', '*', ' ', '*', ' ', '*' ]) := by
  have hlit : ∀ x : Char, x ∈ ([ 'd', 'a', 'i', 'l', 'y', ' ', 't', ':' ] : List Char) →
      jsToLower x = x := by decide
  have htl : toLowerChars [ 'd', 'a', 'i', 'l', 'y', ' ', 'a', 't', ' ', c1, c2, ':', m1, m2 ] =
      [ 'd', 'a', 'i', 'l', 'y', ' ', 'a', 't', ' ', c1, c2, ':', m1, m2 ] := by
    simp only [toLowerChars, List.map]
    rw [digit_toLower c1 hc1, digit_toLower c2 hc2, digit_toLower m1 h1, digit_toLower m2 h2,
      hlit 'd' (by decide), hlit 'a' (by decide), hlit 'i' (by decide), hlit 'l' (by decide),
      hlit 'y' (by decide), hlit ' ' (by decide), hlit 't' (by decide), hlit ':' (by decide)]
  have hrev : ([ 'd', 'a', 'i', 'l', 'y', ' ', 'a', 't', ' ', c1, c2, ':', m1, m2 ] : List Char).reverse =
      [ m2, m1, ':', c2, c1, ' ', 't', 'a', ' ', 'y', 'l', 'i', 'a', 'd' ] := by
    simp
  have htr : trimChars [ 'd', 'a', 'i', 'l', 'y', ' ', 'a', 't', ' ', c1, c2, ':', m1, m2 ] =
      [ 'd', 'a', 'i', 'l', 'y', ' ', 'a', 't', ' ', c1, c2, ':', m1, m2 ] := by
    unfold trimChars
    rw [List.dropWhile_cons]
    rw [if_neg (by decide)]
    rw [hrev, List.dropWhile_cons, if_neg (by simp [digit_not_space m2 h2]), ← hrev,
      List.reverse_reverse]
  have hsplit : splitOnChar ':' [ c1, c2, ':', m1, m2 ] = [[ c1, c2 ], [ m1, m2 ]] := by
    simp [splitOnChar, digit_ne_colon c1 hc1, digit_ne_colon c2 hc2, digit_ne_colon m1 h1,
      digit_ne_colon m2 h2]
  simp only [parseSchedule, htl, htr, oneTime_fail_2 c1 c2 m1 m2 hc1 hc2 h1 h2,
    hb_fail_2 c1 c2 m1 m2 hc1 hc2 h1 h2, daily_succ_2 c1 c2 m1 m2 hc1 hc2 h1 h2]
  simp [hsplit]

theorem digit_ne_space_eq (c : Char) (h : jsDigit c = true) : (c = ' ') = False :=
  digit_ne_lt c ' ' h (by decide)

/-- Claim C9 — confirmed. -/
theorem C9_daily_phrase_parses (hs ms : List Char)
    (hlen : hs.length = 1 ∨ hs.length = 2) (hd : ∀ c ∈ hs, jsDigit c = true)
    (hmlen : ms.length = 2) (hmd : ∀ c ∈ ms, jsDigit c = true) :
    parseSchedule ([ 'd', 'a', 'i', 'l', 'y', ' ', 'a', 't', ' ' ] ++ hs ++ ':' :: ms) =
      some (.recurring ([ '0', ' ' ] ++ ms ++ ' ' :: hs ++ [ ' ', '*', ' ', '*', ' ', '*' ])) ∧
    splitOnChar ' ' ([ '0', ' ' ] ++ ms ++ ' ' :: hs ++ [ ' ', '*', ' ', '*', ' ', '*' ]) =
      [[ '0' ], ms, hs, [ '*' ], [ '*' ], [ '*' ]] := by
  match ms, hmlen with
  | [m1, m2], _ =>
    have h1 : jsDigit m1 = true := hmd m1 (by simp)
    have h2 : jsDigit m2 = true := hmd m2 (by simp)
    match hs, hlen with
    | [c], _ =>
      have hc : jsDigit c = true := hd c (by simp)
      constructor
      · simpa using parse_daily_1 c m1 m2 hc h1 h2
      · simp [splitOnChar, digit_ne_space_eq c hc, digit_ne_space_eq m1 h1,
          digit_ne_space_eq m2 h2]
    | [c1, c2], _ =>
      have hc1 : jsDigit c1 = true := hd c1 (by simp)
      have hc2 : jsDigit c2 = true := hd c2 (by simp)
      constructor
      · simpa using parse_daily_2 c1 c2 m1 m2 hc1 hc2 h1 h2
      · simp [splitOnChar, digit_ne_space_eq c1 hc1, digit_ne_space_eq c2 hc2,
          digit_ne_space_eq m1 h1, digit_ne_space_eq m2 h2]

/-- Witness for C9 at the spec's own scenario. -/
theorem C9_daily_phrase_parses_witness :
    parseSchedule (("daily at 9:30").data) = some (.recurring (("0 30 9 * * *").data)) ∧
    splitOnChar ' ' (("0 30 9 * * *").data) =
      [[ '0' ], [ '3', '0' ], [ '9' ], [ '*' ], [ '*' ], [ '*' ]] := by
  have h := C9_daily_phrase_parses [ '9' ] [ '3', '0' ] (Or.inl (by decide)) (by decide)
    (by decide) (by decide)
  have e1 : ("daily at 9:30").data =
      ([ 'd', 'a', 'i', 'l', 'y', ' ', 'a', 't', ' ' ] ++ [ '9' ] ++ ':' :: [ '3', '0' ]) := by
    decide
  have e2 : ("0 30 9 * * *").data =
      ([ '0', ' ' ] ++ [ '3', '0' ] ++ ' ' :: [ '9' ] ++ [ ' ', '*', ' ', '*', ' ', '*' ]) := by
    decide
  exact ⟨by rw [e1, e2]; exact h.1, by rw [e2]; exact h.2⟩
